import Mathlib

/-!
Verification development for the PDF document-fraud analysis service
(`src/main.py`): a shallow embedding of its metadata skew detector, PDF-date
normalizer, ELA image analyzer, font provenance scanner, annotation overlay
generator, statement extractor, verdict aggregator and batch endpoint,
together with theorems settling the specification's claims.

Conventions of the embedding:
* Python strings are Lean `String`s; byte strings are `List Nat`.
* Python floats carrying monetary values are modelled exactly in cents
  (`Int`); the statement-extraction regexes only ever produce values with two
  decimal digits, so this is value-faithful.
* Python dict lookups `d.get(k, default)` on optional keys are modelled by
  `Option` fields read through `Option.getD`.
* Character classes `\d`, `\s` and `str.lower` are modelled over ASCII (the
  vocabulary appearing in the source's patterns is ASCII).
-/

namespace DocFraud

/-- The expected font whitelist `DEFAULT_FONTS_BANK_OF_AMERICAN`
(src/main.py lines 20-27). -/
def DEFAULT_FONTS_BANK_OF_AMERICAN : List String :=
  ["AAAAAH+ConnectionsIta_CZEX0AC0",
   "AAAAAB+ITC_Franklin_Gothic_Book_CZEX0080",
   "AAAAAD+HigherStandards_CZEX0660",
   "AAAAAL+ConnectionsBold_CZEX0AA0",
   "AAAAAJ+Connections_Medium_CZEX0A80",
   "AAAAAF+Connections_CZEX0A60"]

/-! ## Metadata skew detector (`extract_metadata`, src/main.py lines 66-95) -/

/-- The metadata mapping handed to `extract_metadata`: each standard key is
either present with a string value or absent (`none`). -/
structure Metadata where
  creationDate : Option String
  modDate : Option String
  producer : Option String
  creator : Option String
  author : Option String

/-- `metadata.get(key, 'Unknown')`: an absent key defaults to `"Unknown"`. -/
def metaGet (v : Option String) : String := v.getD "Unknown"

/-- The editing-software vocabulary `edit_softwares` (src/main.py line 78). -/
def edit_softwares : List String :=
  ["Acrobat", "Photoshop", "Word", "GIMP", "Illustrator"]

/-- Membership of a character in an ASCII range class `[lo-hi]`. -/
def inRange (lo hi c : Char) : Bool := lo ≤ c && c ≤ hi

/-- Python `str.lower`, character-wise (ASCII case folding; every needle the
source tests with it is ASCII). -/
def pyToLower (c : Char) : Char :=
  if inRange 'A' 'Z' c then Char.ofNat (c.toNat + 32) else c

/-- Substring test: `needle in haystack` — the needle is a prefix of some
suffix of the haystack. -/
def listContains (needle : List Char) : List Char → Bool
  | [] => needle.isEmpty
  | s@(_ :: rest) => needle.isPrefixOf s || listContains needle rest

/-- Python `needle.lower() in haystack.lower()`: case-insensitive substring
test. -/
def lowerContains (haystack needle : String) : Bool :=
  listContains (needle.data.map pyToLower) (haystack.data.map pyToLower)

/-- The result dict of `extract_metadata`: the echoed metadata strings and the
`analysis_editions` booleans.  (The `except` branch of the source is
unreachable for a well-typed mapping: the body performs only `dict.get`,
string concatenation and containment tests.) -/
structure MetadataAnalysis where
  creation_date : String
  modification_date : String
  producer : String
  creator : String
  author : String
  edited_by_dates : Bool
  edited_by_software : Bool
  deriving Repr, DecidableEq

/-- `extract_metadata` (src/main.py lines 66-95). -/
def extract_metadata (metadata : Metadata) : MetadataAnalysis :=
  let creation_date := metaGet metadata.creationDate
  let mod_date := metaGet metadata.modDate
  let producer := metaGet metadata.producer
  let creator := metaGet metadata.creator
  let author := metaGet metadata.author
  let edited_by_dates := mod_date != creation_date && mod_date != "Unknown"
  let edited_by_software :=
    edit_softwares.any (fun software => lowerContains (producer ++ creator) software)
  { creation_date := creation_date
    modification_date := mod_date
    producer := producer
    creator := creator
    author := author
    edited_by_dates := edited_by_dates
    edited_by_software := edited_by_software }

/-! ## PDF date normalization (`format_pdf_date`, src/main.py lines 98-114)

The source calls `datetime.strptime(pdf_date[:14], "%Y%m%d%H%M%S")`.  CPython
compiles that format into the regex
`(\d\d\d\d)(1[0-2]|0[1-9]|[1-9])(3[01]|[12]\d|0[1-9]|[1-9])(2[0-3]|[0-1]\d|\d)([0-5]\d|\d)(6[0-1]|[0-5]\d|\d)`,
matches it at the start of the string with ordered (leftmost-preferred)
alternation and backtracking, raises `ValueError` when unmatched or when
characters remain after the match, and finally validates the fields through
the `datetime` constructor (year 1..9999, day within the month, second 0..59).
The embedding reproduces exactly that: per-field ordered alternatives, a
depth-first search over them, a full-consumption check, then validation. -/

/-- Numeric value of an ASCII digit. -/
def digitVal (c : Char) : Nat := c.toNat - '0'.toNat

/-- A two-digit regex alternative `[lo1-hi1][lo2-hi2]`. -/
def strpTwo (lo1 hi1 lo2 hi2 : Char) : List Char → Option (Nat × List Char)
  | a :: b :: rest =>
    if inRange lo1 hi1 a && inRange lo2 hi2 b then
      some (digitVal a * 10 + digitVal b, rest)
    else none
  | _ => none

/-- A one-digit regex alternative `[lo-hi]`. -/
def strpOne (lo hi : Char) : List Char → Option (Nat × List Char)
  | a :: rest => if inRange lo hi a then some (digitVal a, rest) else none
  | [] => none

/-- `%Y`: exactly four digits (`\d\d\d\d`). -/
def strpYear : List Char → Option (Nat × List Char)
  | a :: b :: c :: d :: rest =>
    if a.isDigit && b.isDigit && c.isDigit && d.isDigit then
      some (((digitVal a * 10 + digitVal b) * 10 + digitVal c) * 10 + digitVal d, rest)
    else none
  | _ => none

/-- `%m`: `1[0-2]|0[1-9]|[1-9]`, alternatives in regex preference order. -/
def strpMonthAlts : List (List Char → Option (Nat × List Char)) :=
  [strpTwo '1' '1' '0' '2', strpTwo '0' '0' '1' '9', strpOne '1' '9']

/-- `%d`: `3[01]|[12]\d|0[1-9]|[1-9]`. -/
def strpDayAlts : List (List Char → Option (Nat × List Char)) :=
  [strpTwo '3' '3' '0' '1', strpTwo '1' '2' '0' '9', strpTwo '0' '0' '1' '9',
   strpOne '1' '9']

/-- `%H`: `2[0-3]|[0-1]\d|\d`. -/
def strpHourAlts : List (List Char → Option (Nat × List Char)) :=
  [strpTwo '2' '2' '0' '3', strpTwo '0' '1' '0' '9', strpOne '0' '9']

/-- `%M`: `[0-5]\d|\d`. -/
def strpMinuteAlts : List (List Char → Option (Nat × List Char)) :=
  [strpTwo '0' '5' '0' '9', strpOne '0' '9']

/-- `%S`: `6[0-1]|[0-5]\d|\d` (the regex admits leap seconds 60 and 61; the
`datetime` constructor later rejects them). -/
def strpSecondAlts : List (List Char → Option (Nat × List Char)) :=
  [strpTwo '6' '6' '0' '1', strpTwo '0' '5' '0' '9', strpOne '0' '9']

/-- All ways one field can match, in regex preference order. -/
def fieldMatches (alts : List (List Char → Option (Nat × List Char)))
    (s : List Char) : List (Nat × List Char) :=
  alts.filterMap (fun f => f s)

/-- Depth-first search over a sequence of fields, successes in regex
preference order (each with the field values and the remaining input). -/
def strpFields : List (List (List Char → Option (Nat × List Char))) →
    List Char → List (List Nat × List Char)
  | [], s => [([], s)]
  | alts :: more, s =>
    (fieldMatches alts s).flatMap
      (fun vr => (strpFields more vr.2).map (fun wr => (vr.1 :: wr.1, wr.2)))

/-- Gregorian leap year, as `datetime` computes it. -/
def isLeapYear (y : Nat) : Bool := y % 4 == 0 && (y % 100 != 0 || y % 400 == 0)

/-- Days in a month, as `datetime` validates the day field. -/
def daysInMonth (y m : Nat) : Nat :=
  if m = 2 then (if isLeapYear y then 29 else 28)
  else if m = 4 ∨ m = 6 ∨ m = 9 ∨ m = 11 then 30 else 31

/-- `datetime.strptime(s, "%Y%m%d%H%M%S")`: the preferred regex match, the
"unconverted data remains" check, then `datetime` field validation.  `none`
models a raised `ValueError`. -/
def strptimeYmdHMS (s : List Char) : Option (Nat × Nat × Nat × Nat × Nat × Nat) :=
  match strpYear s with
  | none => none
  | some (y, r) =>
    match strpFields [strpMonthAlts, strpDayAlts, strpHourAlts,
                      strpMinuteAlts, strpSecondAlts] r with
    | [] => none
    | (vs, rest) :: _ =>
      match vs with
      | [mo, d, h, mi, se] =>
        if rest.isEmpty && 1 ≤ y && 1 ≤ d && d ≤ daysInMonth y mo && se ≤ 59 then
          some (y, mo, d, h, mi, se)
        else none
      | _ => none

/-- Decimal digits of a `Nat` (fuelled; the fuel `n + 1` always suffices). -/
def natDigitsAux : Nat → Nat → List Char
  | 0, _ => []
  | fuel + 1, n =>
    if n < 10 then [Char.ofNat (48 + n)]
    else natDigitsAux fuel (n / 10) ++ [Char.ofNat (48 + n % 10)]

/-- Decimal representation of a `Nat`, as Python prints one. -/
def natToStr (n : Nat) : String := String.mk (natDigitsAux (n + 1) n)

/-- Two-digit zero padding, as `strftime` pads `%m %d %H %M %S`. -/
def pad2 (n : Nat) : String := if n < 10 then "0" ++ natToStr n else natToStr n

/-- `format_pdf_date` (src/main.py lines 98-114).  Strips a leading `"D:"`,
parses the first 14 characters as a timestamp, formats it and appends the
remainder with `'` replaced by `:`; on a `ValueError` it returns the (already
stripped) string.  (`strftime("%Y-...")` on glibc prints the year without
padding.) -/
def format_pdf_date (pdf_date : String) : String :=
  let t := if "D:".data.isPrefixOf pdf_date.data then pdf_date.data.drop 2
    else pdf_date.data
  match strptimeYmdHMS (t.take 14) with
  | none => String.mk t
  | some (y, mo, d, h, mi, se) =>
    let formatted := natToStr y ++ "-" ++ pad2 mo ++ "-" ++ pad2 d ++ " " ++
      pad2 h ++ ":" ++ pad2 mi ++ ":" ++ pad2 se
    let timezone := t.drop 14
    let timezoneReplaced := timezone.map (fun c => if c = '\'' then ':' else c)
    if ¬ timezone.isEmpty then formatted ++ String.mk timezoneReplaced
    else formatted

/-! ## A small backtracking regex engine

The statement extractor (`structure_extract_in_json`, `extract_account_number`)
uses `re.search` / `re.findall` with a handful of patterns built from literals,
character classes, greedy `*`/`+`/`?`, lazy `.*?`, ordered literal alternation
and `MULTILINE` anchors.  The engine below implements exactly those
constructs with Python's leftmost-preferred backtracking semantics: each token
enumerates its candidate remainders in preference order and the matcher does a
depth-first search over them. -/

/-- Python `\s` over ASCII: space, tab, newline, carriage return, vertical
tab, form feed. -/
def pyWhitespace (c : Char) : Bool :=
  c = ' ' || c = '\t' || c = '\n' || c = '\r' || c = '\x0b' || c = '\x0c'

/-- The class `[\d,]`. -/
def isDigitComma (c : Char) : Bool := c.isDigit || c = ','

/-- The class `[\d\s]`. -/
def isDigitSpace (c : Char) : Bool := c.isDigit || pyWhitespace c

/-- The class `[A-Z\s]`. -/
def isUpperSpace (c : Char) : Bool := inRange 'A' 'Z' c || pyWhitespace c

/-- Non-capturing regex tokens. -/
inductive STok where
  /-- a literal string -/
  | litTok (s : List Char)
  /-- one character of a class -/
  | clsTok (p : Char → Bool)
  /-- greedy `[class]*` -/
  | starTok (p : Char → Bool)
  /-- greedy `[class]+` -/
  | plusTok (p : Char → Bool)
  /-- greedy `c?` -/
  | optTok (c : Char)
  /-- ordered literal alternation `(?:a|b)` -/
  | altTok (xs : List (List Char))
  /-- lazy `.*?` (`.` does not match a newline) -/
  | lazyAnyTok
  /-- `$` in `MULTILINE` mode: at the end or before a newline -/
  | eolTok

/-- Length of the maximal prefix satisfying `p`. -/
def takeWhileLen (p : Char → Bool) : List Char → Nat
  | [] => 0
  | c :: rest => if p c then takeWhileLen p rest + 1 else 0

/-- Consume a literal, or fail. -/
def litDrop (w s : List Char) : Option (List Char) :=
  if w.isPrefixOf s then some (s.drop w.length) else none

/-- The candidate remainders after one token, in the engine's backtracking
preference order. -/
def stokRests : STok → List Char → List (List Char)
  | .litTok w, s => (litDrop w s).toList
  | .clsTok p, s =>
    match s with
    | c :: rest => if p c then [rest] else []
    | [] => []
  | .starTok p, s =>
    let n := takeWhileLen p s
    (List.range (n + 1)).map (fun k => s.drop (n - k))
  | .plusTok p, s =>
    let n := takeWhileLen p s
    (List.range n).map (fun k => s.drop (n - k))
  | .optTok c, s =>
    match s with
    | d :: rest => if d = c then [rest, s] else [s]
    | [] => [s]
  | .altTok xs, s => xs.filterMap (fun w => litDrop w s)
  | .lazyAnyTok, s =>
    let n := takeWhileLen (fun c => c ≠ '\n') s
    (List.range (n + 1)).map (fun k => s.drop k)
  | .eolTok, s =>
    match s with
    | [] => [[]]
    | c :: _ => if c = '\n' then [s] else []

/-- Depth-first match of a token sequence: all final remainders, in
preference order. -/
def matchSToks : List STok → List Char → List (List Char)
  | [], s => [s]
  | t :: ts, s => (stokRests t s).flatMap (fun r => matchSToks ts r)

/-- A pattern element: a simple token or a capturing group of simple tokens
(none of the source's groups nest). -/
inductive Tok where
  /-- a non-capturing token -/
  | simple (t : STok)
  /-- a capturing group `( … )` -/
  | grp (ts : List STok)

/-- Backtracking match of a pattern at the start of `s`: on success, the list
of group captures in order and the remainder. -/
def matchToks : List Tok → List Char → Option (List (List Char) × List Char)
  | [], s => some ([], s)
  | .simple t :: ts, s => (stokRests t s).findSome? (fun r => matchToks ts r)
  | .grp g :: ts, s =>
    (matchSToks g s).findSome? (fun r =>
      (matchToks ts r).map (fun cr => (s.take (s.length - r.length) :: cr.1, cr.2)))

/-- `re.search`: try the pattern at every position, leftmost match wins. -/
def searchToks (pat : List Tok) : List Char → Option (List (List Char))
  | [] => (matchToks pat []).map (fun cr => cr.1)
  | s@(_ :: rest) =>
    match matchToks pat s with
    | some cr => some cr.1
    | none => searchToks pat rest

/-- The text after the next newline, or `none` when no newline remains. -/
def dropLine : List Char → Option (List Char)
  | [] => none
  | c :: rest => if c = '\n' then some rest else dropLine rest

/-- `re.search` of a `^`-anchored `MULTILINE` pattern: try the pattern at the
start of each line (fuelled recursion; fuel `length + 1` always suffices
because each step drops at least one character). -/
def searchLinesAux (pat : List Tok) : Nat → List Char → Option (List (List Char))
  | 0, _ => none
  | fuel + 1, s =>
    match matchToks pat s with
    | some cr => some cr.1
    | none =>
      match dropLine s with
      | none => none
      | some r => searchLinesAux pat fuel r

/-- `re.search` of a `^`-anchored `MULTILINE` pattern. -/
def searchLines (pat : List Tok) (s : List Char) : Option (List (List Char)) :=
  searchLinesAux pat (s.length + 1) s

/-- `re.findall` of a `^…$`-anchored `MULTILINE` pattern: successive
non-overlapping matches, resuming after the newline that ends a matched
line. -/
def findAllLinesAux (pat : List Tok) : Nat → List Char → List (List (List Char))
  | 0, _ => []
  | fuel + 1, s =>
    match matchToks pat s with
    | some (caps, rest) =>
      caps ::
        (match dropLine rest with
         | none => []
         | some r => findAllLinesAux pat fuel r)
    | none =>
      match dropLine s with
      | none => []
      | some r => findAllLinesAux pat fuel r

/-- `re.findall` of a `^…$`-anchored `MULTILINE` pattern. -/
def findAllLines (pat : List Tok) (s : List Char) : List (List (List Char)) :=
  findAllLinesAux pat (s.length + 1) s

/-! ## Statement extractor
(`extract_account_number` and `structure_extract_in_json`,
src/main.py lines 185-267) -/

/-- Python `str.strip()`: drop leading and trailing whitespace. -/
def pyStrip (s : List Char) : List Char :=
  ((s.dropWhile pyWhitespace).reverse.dropWhile pyWhitespace).reverse

/-- Decimal value of a digit list (empty list is 0). -/
def digitsToNat (cs : List Char) : Nat :=
  cs.foldl (fun acc c => acc * 10 + digitVal c) 0

/-- Python `float(value_str.replace(',', ''))` on a capture of
`([\d,]+\.\d{2})`, expressed exactly in cents. -/
def moneyCentsOf (cs : List Char) : Nat :=
  let stripped := cs.filter (fun c => c ≠ ',')
  let intPart := stripped.takeWhile (fun c => c ≠ '.')
  let fracPart := (stripped.dropWhile (fun c => c ≠ '.')).drop 1
  digitsToNat intPart * 100 + digitsToNat (fracPart.take 2)

/-- The same for the possibly negated capture `(-?[\d,]+\.\d{2})`. -/
def signedCentsOf (cs : List Char) : Int :=
  match cs with
  | '-' :: rest => -(moneyCentsOf rest : Int)
  | _ => (moneyCentsOf cs : Int)

/-- The inner helper `find_value(default, text, negative)` of
`structure_extract_in_json` (src/main.py lines 227-233): the first capture's
value, negated when `negative`, and `0.00` when the pattern has no match. -/
def find_value (pat : List Tok) (text : List Char) (negative : Bool) : Int :=
  match searchToks pat text with
  | some caps =>
    let v : Int := (moneyCentsOf (caps.headD []) : Int)
    if negative then -v else v
  | none => 0

/-- Pattern-building shorthand: a literal token. -/
def lit (s : String) : Tok := .simple (.litTok s.data)

/-- `\s+`. -/
def wsPlus : Tok := .simple (.plusTok pyWhitespace)

/-- The capture `([\d,]+\.\d{2})`. -/
def amountGroup : List STok :=
  [.plusTok isDigitComma, .litTok ['.'], .clsTok Char.isDigit, .clsTok Char.isDigit]

/-- The capture `([\d,]+\.\d{2})` as a pattern element. -/
def amt : Tok := .grp amountGroup

/-- `Beginning balance on .*? \$([\d,]+\.\d{2})`. -/
def patBeginningBalance : List Tok :=
  [lit "Beginning balance on ", .simple .lazyAnyTok, lit " $", amt]

/-- `Deposits and other (?:additions|credits)\s+([\d,]+\.\d{2})`. -/
def patDeposits : List Tok :=
  [lit "Deposits and other ", .simple (.altTok ["additions".data, "credits".data]),
   wsPlus, amt]

/-- `ATM and debit card subtractions\s+-([\d,]+\.\d{2})`. -/
def patCardWithdrawals : List Tok :=
  [lit "ATM and debit card subtractions", wsPlus, lit "-", amt]

/-- `Other subtractions\s+-([\d,]+\.\d{2})`. -/
def patOtherSubtractions : List Tok :=
  [lit "Other subtractions", wsPlus, lit "-", amt]

/-- `Withdrawals and other debits\s+-([\d,]+\.\d{2})`. -/
def patWithdrawalsDebits : List Tok :=
  [lit "Withdrawals and other debits", wsPlus, lit "-", amt]

/-- `Service fees\s+-([\d,]+\.\d{2})`. -/
def patServiceFees : List Tok :=
  [lit "Service fees", wsPlus, lit "-", amt]

/-- `Ending balance on .*? \$([\d,]+\.\d{2})`. -/
def patEndingBalance : List Tok :=
  [lit "Ending balance on ", .simple .lazyAnyTok, lit " $", amt]

/-- `Total deposits and other (?:additions|credits)\s+\$([\d,]+\.\d{2})`. -/
def patTotalDeposits : List Tok :=
  [lit "Total deposits and other ",
   .simple (.altTok ["additions".data, "credits".data]), wsPlus, lit "$", amt]

/-- `Total ATM and debit card subtractions\s+-\$([\d,]+\.\d{2})`. -/
def patTotalCard : List Tok :=
  [lit "Total ATM and debit card subtractions", wsPlus, lit "-$", amt]

/-- `Total (?:other subtractions|withdrawals and other debits)\s+-\$([\d,]+\.\d{2})`. -/
def patTotalOther : List Tok :=
  [lit "Total ",
   .simple (.altTok ["other subtractions".data, "withdrawals and other debits".data]),
   wsPlus, lit "-$", amt]

/-- `Account (?:number:|#)\s*([\d\s]+)`. -/
def patAccountNumber : List Tok :=
  [lit "Account ", .simple (.altTok ["number:".data, "#".data]),
   .simple (.starTok pyWhitespace), .grp [.plusTok isDigitSpace]]

/-- `^([A-Z\s]+)\nAccount summary` (`MULTILINE`; note `[A-Z\s]` itself admits
newlines). -/
def patAccountHolder : List Tok :=
  [.grp [.plusTok isUpperSpace], lit "\nAccount summary"]

/-- The capture `(\d{2}/\d{2}/\d{2})`. -/
def dateGroup : List STok :=
  [.clsTok Char.isDigit, .clsTok Char.isDigit, .litTok ['/'],
   .clsTok Char.isDigit, .clsTok Char.isDigit, .litTok ['/'],
   .clsTok Char.isDigit, .clsTok Char.isDigit]

/-- The capture `(-?[\d,]+\.\d{2})`. -/
def signedAmountGroup : List STok :=
  [.optTok '-', .plusTok isDigitComma, .litTok ['.'],
   .clsTok Char.isDigit, .clsTok Char.isDigit]

/-- `^(\d{2}/\d{2}/\d{2})\s+.*?\s+(-?[\d,]+\.\d{2})$` (`MULTILINE`). -/
def patTransaction : List Tok :=
  [.grp dateGroup, wsPlus, .simple .lazyAnyTok, wsPlus,
   .grp signedAmountGroup, .simple .eolTok]

/-- `extract_account_number` (src/main.py lines 185-204). -/
def extract_account_number (full_text : String) : Option String :=
  match searchToks patAccountNumber full_text.data with
  | some caps => some (String.mk (pyStrip (caps.headD [])))
  | none => none

/-- The `account_summary` sub-dict of `structure_extract_in_json`. -/
structure AccountSummary where
  account_number : Option String
  initial_balance : Int
  deposits_additions : Int
  card_withdrawals : Int
  other_withdrawals : Int
  service_fees : Int
  final_balance : Int
  deriving Repr, DecidableEq

/-- The `total_transactions` sub-dict of `structure_extract_in_json`. -/
structure TotalTransactions where
  total_deposits_additions : Int
  total_card_withdrawals : Int
  total_other_withdrawals : Int
  deriving Repr, DecidableEq

/-- One itemized transaction. -/
structure Transaction where
  date : String
  value : Int
  deriving Repr, DecidableEq

/-- The record built by `structure_extract_in_json`. -/
structure StatementRecord where
  account_holder : String
  account_summary : AccountSummary
  total_transactions : TotalTransactions
  transactions : List Transaction
  deriving Repr, DecidableEq

/-- `structure_extract_in_json` (src/main.py lines 207-267).  The
`other_withdrawals` field reproduces the Python `or`: the first
(already-negated) value when it is non-zero (truthy), else the second. -/
def structure_extract_in_json (full_text : String) : StatementRecord :=
  let text := full_text.data
  let account_holder :=
    match searchLines patAccountHolder text with
    | some caps => String.mk (pyStrip (caps.headD []))
    | none => "Name not found"
  let otherFirst := find_value patOtherSubtractions text true
  let account_summary : AccountSummary :=
    { account_number := extract_account_number full_text
      initial_balance := find_value patBeginningBalance text false
      deposits_additions := find_value patDeposits text false
      card_withdrawals := find_value patCardWithdrawals text true
      other_withdrawals :=
        if otherFirst = 0 then find_value patWithdrawalsDebits text true else otherFirst
      service_fees := find_value patServiceFees text true
      final_balance := find_value patEndingBalance text false }
  let total_transactions : TotalTransactions :=
    { total_deposits_additions := find_value patTotalDeposits text false
      total_card_withdrawals := find_value patTotalCard text true
      total_other_withdrawals := find_value patTotalOther text true }
  let transactions :=
    (findAllLines patTransaction text).map (fun caps =>
      { date := String.mk (caps.headD [])
        value := signedCentsOf (caps.getD 1 []) : Transaction })
  { account_holder := account_holder
    account_summary := account_summary
    total_transactions := total_transactions
    transactions := transactions }

/-! ## Font provenance scanner (`parse_pdf_low_level`, src/main.py lines 117-166) -/

/-- A character record from pdfplumber's per-page `chars` stream; each
property is read through `dict.get` with the source's default, so each field
is optional.  Coordinates are modelled as integers (the claims only pass them
through unchanged). -/
structure PdfChar where
  fontname : Option String
  x0 : Option Int
  top : Option Int
  x1 : Option Int
  bottom : Option Int
  text : Option String
  width : Option Int
  height : Option Int

/-- A pdfplumber page: its `chars` stream, the `type` values of its
`objects["xobject"]` entries (`obj.get("type")`, hence optional), and its
`extract_text()` result (`None` for e.g. scanned pages). -/
structure PdfPage where
  chars : List PdfChar
  xobjectTypes : List (Option String)
  text : Option String

/-- A parsed pdfplumber document.  `versionHistory` models
`pdf.metadata.get("XMP:VersionHistory", [])` (absent metadata gives the
empty list). -/
structure PlumberDoc where
  pages : List PdfPage
  versionHistory : List String

/-- One suspicious-region dict: the anomalous glyph's page, font, exact
bounding box `(x0, top, x1, bottom)`, text and size. -/
structure SuspiciousRegion where
  page : Nat
  fontname : String
  bbox : Int × Int × Int × Int
  text : String
  width : Int
  height : Int
  deriving Repr, DecidableEq

/-- `char.get("fontname", "unknown")`. -/
def charFont (c : PdfChar) : String := c.fontname.getD "unknown"

/-- The region dict built for a character whose font is off the whitelist. -/
def mkRegion (pageNum : Nat) (c : PdfChar) : SuspiciousRegion :=
  { page := pageNum
    fontname := charFont c
    bbox := (c.x0.getD 0, c.top.getD 0, c.x1.getD 0, c.bottom.getD 0)
    text := c.text.getD ""
    width := c.width.getD 0
    height := c.height.getD 0 }

/-- One step of the scanning loop over one character: add the font to the
accumulated set (modelled as a first-occurrence-ordered duplicate-free list)
and append a region when the font is off the whitelist. -/
def scanChar (pageNum : Nat) (acc : List String × List SuspiciousRegion)
    (c : PdfChar) : List String × List SuspiciousRegion :=
  let font := charFont c
  let fonts := if font ∈ acc.1 then acc.1 else acc.1 ++ [font]
  let regions :=
    if font ∈ DEFAULT_FONTS_BANK_OF_AMERICAN then acc.2
    else acc.2 ++ [mkRegion pageNum c]
  (fonts, regions)

/-- The double loop `for page_num, page in enumerate(pdf.pages, 1): for char
in page.chars: …`.  (The source's `if page.chars:` guard is behaviourally
the identity: iterating an empty `chars` list contributes nothing.) -/
def scanPages (pages : List PdfPage) : List String × List SuspiciousRegion :=
  (List.enumFrom 1 pages).foldl
    (fun acc pg => pg.2.chars.foldl (scanChar pg.1) acc) ([], [])

/-- The success dict of `parse_pdf_low_level`. -/
structure LowLevelOk where
  revisions : Nat
  font_count : Nat
  fonts_used : List String
  suspicious_regions : List SuspiciousRegion
  suspicious_objects : Bool
  note : String
  deriving Repr, DecidableEq

/-- `parse_pdf_low_level` (src/main.py lines 117-166), success path; the
`except` path (a pdfplumber failure on the file) is modelled at the call
site. -/
def parse_pdf_low_level (doc : PlumberDoc) : LowLevelOk :=
  let fr := scanPages doc.pages
  let fonts := fr.1
  let suspicious_regions := fr.2
  let suspicious_objects := doc.pages.any (fun page =>
    page.xobjectTypes.any (fun t => t = some "/JavaScript" || t = some "/OpenAction"))
  let num_suspicious_chars := suspicious_regions.length
  { revisions := doc.versionHistory.length
    font_count := fonts.length
    fonts_used := fonts
    suspicious_regions := suspicious_regions
    suspicious_objects := suspicious_objects
    note := natToStr fonts.length ++
      " fonts detected; multiple fonts may indicate manipulation." ++
      "Found " ++ natToStr num_suspicious_chars ++
      " occurrences of suspicious fonts at specific positions." ++
      (if !suspicious_regions.isEmpty || suspicious_objects then
        "Suspicious objects found" else "No suspicious objects") ++ "." }

/-! ## Annotation overlay generator
(`highlight_suspicious_fonts`, src/main.py lines 169-182) -/

/-- `fitz.Rect(x0, top, x1, bottom).is_valid`: `x0 ≤ x1` and `top ≤ bottom`.
A degenerate rectangle (zero width or height) is valid. -/
def rectIsValid (b : Int × Int × Int × Int) : Bool :=
  b.1 ≤ b.2.2.1 && b.2.1 ≤ b.2.2.2

/-- `doc[i]` on a PyMuPDF document with `count` pages: Python-style indexing
(a negative index wraps from the end); out of range raises. -/
def loadPage (count : Nat) (i : Int) : Option Nat :=
  if 0 ≤ i ∧ i < (count : Int) then some i.toNat
  else if -(count : Int) ≤ i ∧ i < 0 then some (i + count).toNat
  else none

/-- One iteration of the highlighting loop: skip an invalid rectangle, add
an annotation for a valid one, raise on a bad page reference. -/
def highlightStep (pageCount : Nat) (acc : List (Nat × (Int × Int × Int × Int)))
    (region : SuspiciousRegion) : Except String (List (Nat × (Int × Int × Int × Int))) :=
  if rectIsValid region.bbox then
    match loadPage pageCount ((region.page : Int) - 1) with
    | some p => Except.ok (acc ++ [(p, region.bbox)])
    | none => Except.error "page not in document"
  else Except.ok acc

/-- `highlight_suspicious_fonts` (src/main.py lines 169-182): for each region
whose `fitz.Rect` is valid, load page `region["page"] - 1` of the cloned
document and add a highlight annotation there; invalid rectangles are
skipped; an out-of-range page raises (`Except.error`), aborting the pass.
The cloned output document is represented by the ordered list of annotations
added to it, each `(zero-based page, bbox)`. -/
def highlight_suspicious_fonts (pageCount : Nat) (regions : List SuspiciousRegion) :
    Except String (List (Nat × (Int × Int × Int × Int))) :=
  regions.foldlM (highlightStep pageCount) []

/-! ## Recompression deviation analyzer (`analyze_image`, src/main.py lines 30-63) -/

/-- The two shapes `analyze_image` can return: the success dict (with
`image_stats`, `possible_manipulation` and `manipulation_note` keys) or the
`{"error": msg}` dict. -/
inductive ImageResult where
  /-- the success dict -/
  | ok (possible_manipulation : Bool) (manipulation_note : String)
  /-- the error dict, whose only key is `"error"` -/
  | error (msg : String)
  deriving Repr, DecidableEq

/-- `analyze_image` (src/main.py lines 30-63).  The module imports neither
`numpy` (as `np`) nor `cv2` nor `tempfile` (src/main.py lines 1-11), so the
first statement of the `try` body, `np.frombuffer(image_data, np.uint8)`,
raises `NameError("name 'np' is not defined")` before any image work; the
catch-all `except Exception` turns it into the error dict.  No other return
path is reachable, whatever the bytes. -/
def analyze_image (image_data : List Nat) (quality : Nat := 95) (scale : Nat := 15) :
    ImageResult :=
  ImageResult.error "Error in ELA analysis: name 'np' is not defined"

/-! ## Verdict aggregator and endpoint (`analyze_pdf`, src/main.py lines 296-387) -/

/-- One entry of the endpoint's `image_analysis` list. -/
structure ImageEntry where
  page : Nat
  image_index : Nat
  analysis : ImageResult
  deriving Repr, DecidableEq

/-- `img["analysis"].get("possible_manipulation", False)`: the success dict
carries the key, the error dict does not, so the lookup falls back to
`False`. -/
def getPossibleManipulation : ImageResult → Bool
  | .ok b _ => b
  | .error _ => false

/-- `low_level_analysis.get("fontes_used", [])` (src/main.py line 361).  The
keys present in either result shape of `parse_pdf_low_level` are `revisions`,
`font_count`, `fonts_used`, `suspicious_regions`, `suspicious_objects`,
`note` — or `error` — none of which is spelled `"fontes_used"`, so the
lookup always yields the default `[]`. -/
def lowLevelGetFontesUsed (r : Except String LowLevelOk) : List String := []

/-- `low_level_analysis.get("suspicious_objects", False)`. -/
def lowLevelGetSuspiciousObjects : Except String LowLevelOk → Bool
  | .ok v => v.suspicious_objects
  | .error _ => false

/-- `low_level_analysis.get('suspicious_regions')` (no default): `None` when
the low-level analysis returned its error dict. -/
def lowLevelGetSuspiciousRegions : Except String LowLevelOk →
    Option (List SuspiciousRegion)
  | .ok v => some v.suspicious_regions
  | .error _ => none

/-- Lexicographic code-point comparison, Python `<=` on strings. -/
def strLe : List Char → List Char → Bool
  | [], _ => true
  | _ :: _, [] => false
  | c :: cs, d :: ds => if c = d then strLe cs ds else decide (c.toNat < d.toNat)

/-- Insert a string into a sorted list, keeping it sorted. -/
def insertSorted (x : String) : List String → List String
  | [] => [x]
  | y :: ys => if strLe x.data y.data then x :: y :: ys else y :: insertSorted x ys

/-- Python `sorted` on a list of strings (lexicographic by code point). -/
def pySorted (l : List String) : List String := l.foldr insertSorted []

/-- The `possible_edits` dict the endpoint builds (src/main.py lines
352-363). -/
structure PossibleEdits where
  edited_by_dates : Bool
  edited_by_software : Bool
  image_analysis_summary : Bool
  low_level_analysis_summary : Bool
  summary : String
  deriving Repr, DecidableEq

/-- The verdict aggregator: the `possible_edits` construction of
src/main.py lines 352-363, verbatim — including the `"fontes_used"` lookup
in the summary's font-divergence disjunct. -/
def possible_edits (metadata_extracted : MetadataAnalysis)
    (image_analysis : List ImageEntry)
    (low_level_analysis : Except String LowLevelOk) : PossibleEdits :=
  let image_summary :=
    image_analysis.any (fun img => getPossibleManipulation img.analysis)
  { edited_by_dates := metadata_extracted.edited_by_dates
    edited_by_software := metadata_extracted.edited_by_software
    image_analysis_summary := image_summary
    low_level_analysis_summary := lowLevelGetSuspiciousObjects low_level_analysis
    summary :=
      if metadata_extracted.edited_by_dates || metadata_extracted.edited_by_software ||
          image_summary ||
          (pySorted DEFAULT_FONTS_BANK_OF_AMERICAN !=
            pySorted (lowLevelGetFontesUsed low_level_analysis)) then
        "Possible edit detected"
      else "No obvious edits detected." }

/-- The fitz view of an opened document: its metadata dict and the raw bytes
of each page's embedded images.  `pagesImages.length` is the page count. -/
structure FitzDoc where
  metadata : Metadata
  pagesImages : List (List (List Nat))

/-- One uploaded file.  `fitz_doc` and `plumber_doc` are the outcomes of
handing its bytes to the two parsing collaborators; `none` models the
collaborator raising on a document it cannot open. -/
structure UploadFileModel where
  filename : String
  fitz_doc : Option FitzDoc
  plumber_doc : Option PlumberDoc

/-- Python `str.endswith`. -/
def pyEndsWith (s pat : String) : Bool := pat.data.reverse.isPrefixOf s.data.reverse

/-- A raised `HTTPException`. -/
structure HTTPError where
  status_code : Nat
  detail : String
  deriving Repr, DecidableEq

/-- `parse_pdf_low_level` including its `except` path: the error dict when
pdfplumber cannot open the document. -/
def parse_pdf_low_level_result (plumber_doc : Option PlumberDoc) :
    Except String LowLevelOk :=
  match plumber_doc with
  | some doc => Except.ok (parse_pdf_low_level doc)
  | none => Except.error "Error running pdfplumber: cannot open"

/-- `extract_bank_statement` (src/main.py lines 270-293): the concatenated
page text (`page.extract_text() or ""`) fed to `structure_extract_in_json`;
a pdfplumber failure is caught and returned as the error dict. -/
def extract_bank_statement (plumber_doc : Option PlumberDoc) :
    Except String StatementRecord :=
  match plumber_doc with
  | some doc =>
    Except.ok (structure_extract_in_json
      (doc.pages.foldl (fun acc p => acc ++ p.text.getD "") ""))
  | none => Except.error "Error processing PDF: cannot open"

/-- The endpoint's image loop (src/main.py lines 323-339): every embedded
image of every page analyzed in order, pages numbered from 1, image indices
from 0. -/
def collectImageAnalysis (doc : FitzDoc) : List ImageEntry :=
  (List.enumFrom 1 doc.pagesImages).flatMap (fun pg =>
    pg.2.enum.map (fun im =>
      { page := pg.1, image_index := im.1, analysis := analyze_image im.2 }))

/-- One per-document record of the endpoint's response (the fields the
claims inspect). -/
structure DocumentRecord where
  file_name : String
  creation_date : String
  modification_date : String
  low_level_analysis : Except String LowLevelOk
  analysis_editions : PossibleEdits
  bank_result : Except String StatementRecord
  image_analysis : List ImageEntry

/-- One iteration of the endpoint's `for file in files:` loop (src/main.py
lines 299-379).  The filename check raises HTTP 400 (it stands before the
`try`); inside the `try`, an unreadable document, a metadata dict without
the `creationDate`/`modDate` key (`.get` returns `None` and
`format_pdf_date` raises `AttributeError`, uncaught since it catches only
`ValueError`), the highlighter receiving `None` instead of a region list
(`TypeError`), or a bad page reference in the highlighter each raise, and
the catch-all `except` re-raises as HTTP 500. -/
def processOne (file : UploadFileModel) : Except HTTPError DocumentRecord :=
  if ¬ pyEndsWith file.filename ".pdf" then
    Except.error { status_code := 400, detail := "Only PDF files are supported." }
  else
    match file.fitz_doc with
    | none =>
      Except.error
        { status_code := 500
          detail := "Error processing PDF: cannot open document" }
    | some fdoc =>
      let metadata_extracted := extract_metadata fdoc.metadata
      match fdoc.metadata.creationDate, fdoc.metadata.modDate with
      | some cd, some md =>
        let creation_date := format_pdf_date cd
        let mod_date := format_pdf_date md
        let image_analysis := collectImageAnalysis fdoc
        let low := parse_pdf_low_level_result file.plumber_doc
        match lowLevelGetSuspiciousRegions low with
        | none =>
          Except.error
            { status_code := 500
              detail := "Error processing PDF: argument of type NoneType is not iterable" }
        | some regions =>
          match highlight_suspicious_fonts fdoc.pagesImages.length regions with
          | .error e =>
            Except.error
              { status_code := 500
                detail := "Error processing PDF: " ++ e }
          | .ok _ =>
            Except.ok
              { file_name := file.filename
                creation_date := creation_date
                modification_date := mod_date
                low_level_analysis := low
                analysis_editions := possible_edits metadata_extracted image_analysis low
                bank_result := extract_bank_statement file.plumber_doc
                image_analysis := image_analysis }
      | _, _ =>
        Except.error
          { status_code := 500
            detail := "Error processing PDF: 'NoneType' object has no attribute 'startswith'" }

/-- One loop step of the endpoint: append the file's record to
`final_result`, or propagate its `HTTPException`. -/
def analyzeStep (acc : List DocumentRecord) (file : UploadFileModel) :
    Except HTTPError (List DocumentRecord) :=
  (processOne file).map (fun r => acc ++ [r])

/-- The endpoint `analyze_pdf` (src/main.py lines 296-387): the files
processed in order, results appended to `final_result`; the first raised
`HTTPException` propagates out of the loop and aborts the whole batch. -/
def analyze_pdf (files : List UploadFileModel) : Except HTTPError (List DocumentRecord) :=
  files.foldlM analyzeStep []

/-! ## Shared lemmas -/

/-- `listContains` decides list containment (the substring relation). -/
theorem listContains_iff (needle : List Char) :
    ∀ haystack : List Char, listContains needle haystack = true ↔ needle <:+: haystack := by
  intro haystack
  induction haystack with
  | nil => simp [listContains, List.isEmpty_iff, List.infix_nil]
  | cons c rest ih =>
    simp [listContains, Bool.or_eq_true, ih, List.isPrefixOf_iff_prefix,
      List.infix_cons_iff]

/-! ## Claim C4 — metadata skew detector -/

/-- C4: for every metadata mapping (absent keys defaulting to `"Unknown"`),
`extract_metadata` returns `edited_by_dates = (modDate ≠ creationDate) AND
(modDate ≠ "Unknown")` — in particular equal dates force it false — and
`edited_by_software` is true exactly when the concatenation of producer and
creator contains, case-insensitively, one of the five editing-tool names. -/
theorem extract_metadata_spec (md : Metadata) :
    ((extract_metadata md).edited_by_dates = true ↔
      (metaGet md.modDate ≠ metaGet md.creationDate ∧ metaGet md.modDate ≠ "Unknown"))
    ∧ (metaGet md.modDate = metaGet md.creationDate →
        (extract_metadata md).edited_by_dates = false)
    ∧ ((extract_metadata md).edited_by_software = true ↔
      ∃ software ∈ edit_softwares,
        software.data.map pyToLower <:+:
          (metaGet md.producer ++ metaGet md.creator).data.map pyToLower) := by
  refine ⟨?_, ?_, ?_⟩
  · simp [extract_metadata, Bool.and_eq_true, bne_iff_ne]
  · intro h
    simp [extract_metadata, h]
  · simp [extract_metadata, List.any_eq_true, lowerContains, listContains_iff]

/-! ## Claim C1 — verdict aggregator -/

/-- C1 (defect): whatever the metadata signals, image results and low-level
analysis, the aggregated summary is always `"Possible edit detected"`: the
font-divergence disjunct compares the sorted whitelist with the value of the
misspelled key `"fontes_used"`, which is absent from the low-level result, so
the lookup yields `[]` and the comparison is always unequal.  In particular
the claimed no-edit message is unreachable and flipping a single signal never
changes the summary. -/
theorem possible_edits_summary_constant (metadata_extracted : MetadataAnalysis)
    (image_analysis : List ImageEntry)
    (low_level_analysis : Except String LowLevelOk) :
    (possible_edits metadata_extracted image_analysis low_level_analysis).summary =
      "Possible edit detected" := by
  have h : (pySorted DEFAULT_FONTS_BANK_OF_AMERICAN !=
      pySorted (lowLevelGetFontesUsed low_level_analysis)) = true := by
    simp only [lowLevelGetFontesUsed]
    decide
  simp [possible_edits, h]

/-! ## Claims C5 and C9 — image analyzer -/

/-- C5 (defect evaluation): on a concrete byte string (the start of a valid
JPEG), `analyze_image` does not perform the claimed ELA pipeline but returns
the error dict produced by the `NameError` on the unimported `np`. -/
theorem analyze_image_jpeg_error :
    analyze_image [255, 216, 255, 224] 95 15 =
      ImageResult.error "Error in ELA analysis: name 'np' is not defined" := rfl

/-- C9: for every input byte string (and any quality/scale), `analyze_image`
returns the error-shaped value — the dict whose only key is `"error"` —
because `np`, `cv2` and `tempfile` are never imported; consequently every
entry of the endpoint's image analysis is error-shaped and the aggregated
`image_analysis_summary` flag is false for every document. -/
theorem analyze_image_always_error :
    (∀ (image_data : List Nat) (quality scale : Nat),
      analyze_image image_data quality scale =
        ImageResult.error "Error in ELA analysis: name 'np' is not defined")
    ∧ (∀ doc : FitzDoc,
        (collectImageAnalysis doc).any
          (fun img => getPossibleManipulation img.analysis) = false)
    ∧ (∀ (m : MetadataAnalysis) (doc : FitzDoc) (low : Except String LowLevelOk),
        (possible_edits m (collectImageAnalysis doc) low).image_analysis_summary
          = false) := by
  have h2 : ∀ doc : FitzDoc,
      (collectImageAnalysis doc).any
        (fun img => getPossibleManipulation img.analysis) = false := by
    intro doc
    rw [List.any_eq_false]
    intro img hmem
    simp only [collectImageAnalysis, List.mem_flatMap, List.mem_map] at hmem
    obtain ⟨pg, _, im, _, rfl⟩ := hmem
    simp [analyze_image, getPossibleManipulation]
  refine ⟨fun _ _ _ => rfl, h2, ?_⟩
  intro m doc low
  simpa [possible_edits] using h2 doc

/-! ## Claim C2 — PDF date normalization -/

/-- C2 counterexample: the claimed output `"2025-07-31 14:53:53-05:00"` is
wrong — `"144353"` reads 14:43:53, not 14:53:53 — and a malformed timestamp
beginning with `"D:"` is returned with that prefix stripped, not unchanged. -/
theorem format_pdf_date_counterexample :
    format_pdf_date "D:20250731144353-05'00" = "2025-07-31 14:43:53-05:00" ∧
    format_pdf_date "D:20250731144353-05'00" ≠ "2025-07-31 14:53:53-05:00" ∧
    format_pdf_date "D:abc" = "abc" ∧ ("abc" : String) ≠ "D:abc" :=
  ⟨rfl, by decide, rfl, by decide⟩

/-- C2 amended: `format_pdf_date "D:20250731144353-05'00"` is exactly
`"2025-07-31 14:43:53-05:00"`, and every input whose (`"D:"`-stripped) first
14 characters fail to parse as a timestamp is returned with a leading `"D:"`
removed and otherwise unchanged, never raising. -/
theorem format_pdf_date_amended :
    format_pdf_date "D:20250731144353-05'00" = "2025-07-31 14:43:53-05:00" ∧
    ∀ s : String,
      strptimeYmdHMS ((if "D:".data.isPrefixOf s.data then s.data.drop 2
        else s.data).take 14) = none →
      format_pdf_date s =
        String.mk (if "D:".data.isPrefixOf s.data then s.data.drop 2 else s.data) := by
  refine ⟨rfl, ?_⟩
  intro s h
  simp only [format_pdf_date, h]

/-- C2 amended, witnessed: the failure hypothesis is satisfiable — at
`"D:abc"` the parse fails and the result is the stripped `"abc"`. -/
theorem format_pdf_date_amended_witness :
    format_pdf_date "D:abc" = String.mk "abc".data :=
  format_pdf_date_amended.2 "D:abc" (by decide)

/-! ## Claim C3 — batch error propagation -/

/-- A well-formed one-page upload whose processing succeeds end to end. -/
def goodFile : UploadFileModel :=
  { filename := "b.pdf"
    fitz_doc := some
      { metadata :=
          { creationDate := some "D:20240101000000"
            modDate := some "D:20240101000000"
            producer := some "p"
            creator := some "c"
            author := some "a" }
        pagesImages := [[]] }
    plumber_doc := some
      { pages := [{ chars := [], xobjectTypes := [], text := some "" }]
        versionHistory := [] } }

/-- An upload whose filename does not end in `.pdf`. -/
def textFile : UploadFileModel :=
  { filename := "a.txt", fitz_doc := none, plumber_doc := none }

/-- If some file of the batch fails, the whole fold ends in an error,
whatever was accumulated before. -/
theorem foldlM_analyzeStep_error (files : List UploadFileModel) :
    ∀ acc : List DocumentRecord,
      (∃ f ∈ files, ∀ r, processOne f ≠ Except.ok r) →
      ∃ e, files.foldlM analyzeStep acc = Except.error e := by
  induction files with
  | nil => simp
  | cons f fs ih =>
    intro acc h
    rcases h with ⟨g, hg, hfail⟩
    rw [List.foldlM_cons]
    rcases List.mem_cons.mp hg with rfl | hmem
    · cases hp : processOne g with
      | error e =>
        refine ⟨e, ?_⟩
        have hstep : analyzeStep acc g = Except.error e := by
          simp [analyzeStep, hp, Except.map]
        rw [hstep]
        rfl
      | ok r => exact absurd hp (hfail r)
    · cases hp : processOne f with
      | error e =>
        refine ⟨e, ?_⟩
        have hstep : analyzeStep acc f = Except.error e := by
          simp [analyzeStep, hp, Except.map]
        rw [hstep]
        rfl
      | ok r =>
        obtain ⟨e, he⟩ := ih (acc ++ [r]) ⟨g, hmem, hfail⟩
        refine ⟨e, ?_⟩
        have hstep : analyzeStep acc f = Except.ok (acc ++ [r]) := by
          simp [analyzeStep, hp, Except.map]
        rw [hstep]
        exact he

/-- If every file of the batch succeeds, the fold returns one record per
file, appended to the accumulator. -/
theorem foldlM_analyzeStep_ok (files : List UploadFileModel) :
    ∀ acc : List DocumentRecord,
      (∀ f ∈ files, ∃ r, processOne f = Except.ok r) →
      ∃ rs, files.foldlM analyzeStep acc = Except.ok rs ∧
        rs.length = acc.length + files.length := by
  induction files with
  | nil =>
    intro acc _
    exact ⟨acc, rfl, by simp⟩
  | cons f fs ih =>
    intro acc h
    obtain ⟨r, hr⟩ := h f (by simp)
    obtain ⟨rs, hrs, hlen⟩ := ih (acc ++ [r]) (fun g hg => h g (by simp [hg]))
    refine ⟨rs, ?_, ?_⟩
    · rw [List.foldlM_cons]
      have hstep : analyzeStep acc f = Except.ok (acc ++ [r]) := by
        simp [analyzeStep, hr, Except.map]
      rw [hstep]
      exact hrs
    · simp at hlen
      simp [hlen]
      omega

/-- C3 counterexample: in the batch `[textFile, goodFile]` the first document
has the wrong type; the endpoint answers a single HTTP 400 error and returns
no per-document results at all, although the second document on its own
processes successfully — the wrong-type document does not abort "only that
item" and processing does not continue. -/
theorem analyze_pdf_counterexample :
    analyze_pdf [textFile, goodFile] =
      Except.error { status_code := 400, detail := "Only PDF files are supported." } ∧
    (∃ r, processOne goodFile = Except.ok r) :=
  ⟨rfl, ⟨_, rfl⟩⟩

/-- C3 amended: detector-level failures are captured in their schema slots,
but at the batch level the first failing document (wrong type or unhandled
processing fault) raises an `HTTPException` that aborts the entire batch and
discards every result; only a batch whose documents all succeed yields a
result list, with exactly one record per document. -/
theorem analyze_pdf_batch_behavior (files : List UploadFileModel) :
    ((∃ f ∈ files, ∀ r, processOne f ≠ Except.ok r) →
      ∃ e, analyze_pdf files = Except.error e)
    ∧ ((∀ f ∈ files, ∃ r, processOne f = Except.ok r) →
      ∃ rs, analyze_pdf files = Except.ok rs ∧ rs.length = files.length) := by
  constructor
  · intro h
    exact foldlM_analyzeStep_error files [] h
  · intro h
    obtain ⟨rs, hrs, hlen⟩ := foldlM_analyzeStep_ok files [] h
    exact ⟨rs, hrs, by simpa using hlen⟩

/-! ## Claim C6 — font provenance scanner -/

/-- The enumerated character stream of a document: every character paired
with its 1-based page number, in document order. -/
def allChars (pages : List PdfPage) : List (Nat × PdfChar) :=
  (List.enumFrom 1 pages).flatMap (fun pg => pg.2.chars.map (fun c => (pg.1, c)))

/-- A character whose font is outside the whitelist. -/
def badFont (c : PdfChar) : Bool :=
  decide (charFont c ∉ DEFAULT_FONTS_BANK_OF_AMERICAN)

/-- The region component of the character fold: the accumulated regions plus
one region per non-whitelisted character, in encounter order. -/
theorem foldl_scanChar_regions (n : Nat) (chars : List PdfChar) :
    ∀ acc : List String × List SuspiciousRegion,
      (chars.foldl (scanChar n) acc).2 =
        acc.2 ++ (chars.filter badFont).map (mkRegion n) := by
  induction chars with
  | nil => intro acc; simp
  | cons c cs ih =>
    intro acc
    rw [List.foldl_cons, ih]
    by_cases h : charFont c ∈ DEFAULT_FONTS_BANK_OF_AMERICAN
    · simp [scanChar, badFont, h]
    · simp [scanChar, badFont, h]

/-- The page fold distributes likewise over the enumerated character
stream. -/
theorem foldl_pages_regions (pairs : List (Nat × PdfPage)) :
    ∀ acc : List String × List SuspiciousRegion,
      (pairs.foldl (fun acc pg => pg.2.chars.foldl (scanChar pg.1) acc) acc).2 =
        acc.2 ++ ((pairs.flatMap (fun pg => pg.2.chars.map (fun c => (pg.1, c)))).filter
          (fun pc => badFont pc.2)).map (fun pc => mkRegion pc.1 pc.2) := by
  induction pairs with
  | nil => intro acc; simp
  | cons pg rest ih =>
    intro acc
    rw [List.foldl_cons, ih, foldl_scanChar_regions]
    simp [List.filter_append, List.map_append, List.filter_map, Function.comp_def]

/-- The suspicious regions of the scan are exactly the non-whitelisted
characters in encounter order, each with its region data. -/
theorem scanPages_regions (pages : List PdfPage) :
    (scanPages pages).2 =
      ((allChars pages).filter (fun pc => badFont pc.2)).map
        (fun pc => mkRegion pc.1 pc.2) := by
  rw [scanPages, foldl_pages_regions]
  rfl

/-- A fold over pages that all have empty character streams is the
identity. -/
theorem foldl_pages_empty (pairs : List (Nat × PdfPage))
    (h : ∀ pg ∈ pairs, pg.2.chars = []) :
    ∀ acc : List String × List SuspiciousRegion,
      pairs.foldl (fun acc pg => pg.2.chars.foldl (scanChar pg.1) acc) acc = acc := by
  induction pairs with
  | nil => intro acc; rfl
  | cons pg rest ih =>
    intro acc
    rw [List.foldl_cons, h pg (by simp)]
    exact ih (fun q hq => h q (by simp [hq])) acc

/-- The second component of an enumerated pair is a member of the list. -/
theorem snd_mem_enumFrom {α : Type} :
    ∀ (l : List α) (n : Nat) (p : Nat × α), p ∈ List.enumFrom n l → p.2 ∈ l := by
  intro l
  induction l with
  | nil => intro n p hp; simp [List.enumFrom] at hp
  | cons x xs ih =>
    intro n p hp
    rw [List.enumFrom] at hp
    rcases List.mem_cons.mp hp with rfl | hmem
    · simp
    · exact List.mem_cons.mpr (Or.inr (ih (n + 1) p hmem))

/-- C6: a document whose characters all use whitelisted fonts yields an
empty suspicious-region sequence; a document with exactly one character in a
non-whitelisted font yields exactly one region carrying that character's
exact bounding box `(x0, top, x1, bottom)`; and pages with zero extractable
characters contribute an empty font set and no regions, without failing. -/
theorem parse_pdf_low_level_font_scan (doc : PlumberDoc) :
    ((∀ pc ∈ allChars doc.pages, charFont pc.2 ∈ DEFAULT_FONTS_BANK_OF_AMERICAN) →
      (parse_pdf_low_level doc).suspicious_regions = [])
    ∧ (∀ (n : Nat) (c : PdfChar),
        (allChars doc.pages).filter (fun pc => badFont pc.2) = [(n, c)] →
        (parse_pdf_low_level doc).suspicious_regions = [mkRegion n c] ∧
        (mkRegion n c).bbox = (c.x0.getD 0, c.top.getD 0, c.x1.getD 0, c.bottom.getD 0))
    ∧ ((∀ page ∈ doc.pages, page.chars = []) →
      (parse_pdf_low_level doc).fonts_used = [] ∧
      (parse_pdf_low_level doc).suspicious_regions = []) := by
  have hregions : (parse_pdf_low_level doc).suspicious_regions = (scanPages doc.pages).2 := by
    simp [parse_pdf_low_level]
  refine ⟨?_, ?_, ?_⟩
  · intro h
    rw [hregions, scanPages_regions]
    have : (allChars doc.pages).filter (fun pc => badFont pc.2) = [] := by
      rw [List.filter_eq_nil_iff]
      intro pc hpc
      simp [badFont, h pc hpc]
    rw [this]
    rfl
  · intro n c h
    rw [hregions, scanPages_regions, h]
    exact ⟨rfl, rfl⟩
  · intro h
    have hempty : ∀ pg ∈ List.enumFrom 1 doc.pages, pg.2.chars = [] :=
      fun pg hpg => h pg.2 (snd_mem_enumFrom doc.pages 1 pg hpg)
    have hscan : scanPages doc.pages = ([], []) := by
      rw [scanPages]
      exact foldl_pages_empty (List.enumFrom 1 doc.pages) hempty ([], [])
    constructor
    · simp [parse_pdf_low_level, hscan]
    · rw [hregions, hscan]

/-! ## Claim C7 — statement extractor defaults and negation -/

/-- `find_value` of an unmatched pattern is `0.00`, negated or not. -/
theorem find_value_none {pat : List Tok} {text : List Char}
    (h : searchToks pat text = none) (negative : Bool) :
    find_value pat text negative = 0 := by
  simp [find_value, h]

/-- `find_value` of a matched pattern with `negative` set is the negated
magnitude of the first capture. -/
theorem find_value_some_negative {pat : List Tok} {text : List Char}
    {caps : List (List Char)} (h : searchToks pat text = some caps) :
    find_value pat text true = -(moneyCentsOf (caps.headD []) : Int) := by
  simp [find_value, h]

/-- A negated `find_value` is never positive: the captured magnitude is a
natural number. -/
theorem find_value_nonpos (pat : List Tok) (text : List Char) :
    find_value pat text true ≤ 0 := by
  cases h : searchToks pat text with
  | none => simp [find_value, h]
  | some caps =>
    rw [find_value_some_negative h]
    exact neg_nonpos.mpr (Int.natCast_nonneg _)

/-- C7: each of the six summary figures whose anchor pattern has no match is
returned as `0.00` (the field is always present — the record is total), and
every matched withdrawal or service-fee figure is stored as the negated
magnitude of its capture, hence never positive. -/
theorem statement_summary_defaults (text : String) :
    (searchToks patBeginningBalance text.data = none →
      (structure_extract_in_json text).account_summary.initial_balance = 0)
    ∧ (searchToks patDeposits text.data = none →
      (structure_extract_in_json text).account_summary.deposits_additions = 0)
    ∧ (searchToks patCardWithdrawals text.data = none →
      (structure_extract_in_json text).account_summary.card_withdrawals = 0)
    ∧ (searchToks patOtherSubtractions text.data = none →
      searchToks patWithdrawalsDebits text.data = none →
      (structure_extract_in_json text).account_summary.other_withdrawals = 0)
    ∧ (searchToks patServiceFees text.data = none →
      (structure_extract_in_json text).account_summary.service_fees = 0)
    ∧ (searchToks patEndingBalance text.data = none →
      (structure_extract_in_json text).account_summary.final_balance = 0)
    ∧ (∀ caps, searchToks patCardWithdrawals text.data = some caps →
      (structure_extract_in_json text).account_summary.card_withdrawals =
        -(moneyCentsOf (caps.headD []) : Int))
    ∧ (∀ caps, searchToks patServiceFees text.data = some caps →
      (structure_extract_in_json text).account_summary.service_fees =
        -(moneyCentsOf (caps.headD []) : Int))
    ∧ (structure_extract_in_json text).account_summary.card_withdrawals ≤ 0
    ∧ (structure_extract_in_json text).account_summary.other_withdrawals ≤ 0
    ∧ (structure_extract_in_json text).account_summary.service_fees ≤ 0 := by
  have hinit : (structure_extract_in_json text).account_summary.initial_balance =
      find_value patBeginningBalance text.data false := by
    simp [structure_extract_in_json]
  have hdep : (structure_extract_in_json text).account_summary.deposits_additions =
      find_value patDeposits text.data false := by
    simp [structure_extract_in_json]
  have hcard : (structure_extract_in_json text).account_summary.card_withdrawals =
      find_value patCardWithdrawals text.data true := by
    simp [structure_extract_in_json]
  have hother : (structure_extract_in_json text).account_summary.other_withdrawals =
      (if find_value patOtherSubtractions text.data true = 0 then
        find_value patWithdrawalsDebits text.data true
      else find_value patOtherSubtractions text.data true) := by
    simp [structure_extract_in_json]
  have hfees : (structure_extract_in_json text).account_summary.service_fees =
      find_value patServiceFees text.data true := by
    simp [structure_extract_in_json]
  have hfinal : (structure_extract_in_json text).account_summary.final_balance =
      find_value patEndingBalance text.data false := by
    simp [structure_extract_in_json]
  refine ⟨?_, ?_, ?_, ?_, ?_, ?_, ?_, ?_, ?_, ?_, ?_⟩
  · intro h; rw [hinit, find_value_none h]
  · intro h; rw [hdep, find_value_none h]
  · intro h; rw [hcard, find_value_none h]
  · intro h1 h2; rw [hother, find_value_none h1, find_value_none h2]; simp
  · intro h; rw [hfees, find_value_none h]
  · intro h; rw [hfinal, find_value_none h]
  · intro caps h; rw [hcard, find_value_some_negative h]
  · intro caps h; rw [hfees, find_value_some_negative h]
  · rw [hcard]; exact find_value_nonpos _ _
  · rw [hother]
    by_cases h0 : find_value patOtherSubtractions text.data true = 0
    · simp [h0]; exact find_value_nonpos _ _
    · simp [h0]; exact find_value_nonpos _ _
  · rw [hfees]; exact find_value_nonpos _ _

/-- C7 witnessed: the match and no-match hypotheses are satisfiable — a text
carrying only a `Service fees  -12.34` line stores exactly `-12.34`, and a
text without the beginning-balance anchor yields `0.00`. -/
theorem statement_summary_defaults_witness :
    (structure_extract_in_json "Service fees  -12.34").account_summary.service_fees
      = -1234 ∧
    (structure_extract_in_json "hello").account_summary.initial_balance = 0 := by
  constructor
  · have h := (statement_summary_defaults "Service fees  -12.34").2.2.2.2.2.2.2.1
      [['1', '2', '.', '3', '4']] (by decide)
    exact h.trans (by decide)
  · exact (statement_summary_defaults "hello").1 (by decide)

/-! ## Claim C8 — annotation overlay generator -/

/-- A region whose bounding box is a degenerate (zero-area) rectangle. -/
def degenRegion : SuspiciousRegion :=
  { page := 1, fontname := "F", bbox := (5, 5, 5, 5), text := "x", width := 0, height := 0 }

/-- C8 counterexample: `fitz.Rect.is_valid` accepts a degenerate rectangle
(`x0 = x1`, `top = bottom`), so the pass draws a highlight for it instead of
skipping it — the code does not validate non-degeneracy as claimed. -/
theorem highlight_degenerate_box_drawn :
    highlight_suspicious_fonts 1 [degenRegion] = Except.ok [(0, (5, 5, 5, 5))] ∧
    degenRegion.bbox.1 = degenRegion.bbox.2.2.1 ∧
    degenRegion.bbox.2.1 = degenRegion.bbox.2.2.2 :=
  ⟨rfl, rfl, rfl⟩

/-- The highlight fold, for regions whose pages all exist, appends one
annotation per well-formed (possibly degenerate) rectangle. -/
theorem highlight_fold_ok (pageCount : Nat) (regions : List SuspiciousRegion) :
    ∀ acc : List (Nat × (Int × Int × Int × Int)),
      (∀ r ∈ regions, 1 ≤ r.page ∧ r.page ≤ pageCount) →
      regions.foldlM (highlightStep pageCount) acc =
        Except.ok (acc ++ (regions.filter (fun r => rectIsValid r.bbox)).map
          (fun r => (r.page - 1, r.bbox))) := by
  induction regions with
  | nil =>
    intro acc _
    simp
    rfl
  | cons r rs ih =>
    intro acc h
    obtain ⟨h1, h2⟩ := h r (by simp)
    rw [List.foldlM_cons]
    by_cases hv : rectIsValid r.bbox
    · have hload : loadPage pageCount ((r.page : Int) - 1) = some (r.page - 1) := by
        rw [loadPage, if_pos]
        · congr 1
          omega
        · constructor <;> omega
      have hstep : highlightStep pageCount acc r = Except.ok (acc ++ [(r.page - 1, r.bbox)]) := by
        rw [highlightStep, if_pos hv, hload]
      rw [hstep]
      show rs.foldlM (highlightStep pageCount) (acc ++ [(r.page - 1, r.bbox)]) = _
      rw [ih (acc ++ [(r.page - 1, r.bbox)]) (fun q hq => h q (by simp [hq]))]
      simp [hv]
    · have hstep : highlightStep pageCount acc r = Except.ok acc := by
        rw [highlightStep, if_neg hv]
      rw [hstep]
      show rs.foldlM (highlightStep pageCount) acc = _
      rw [ih acc (fun q hq => h q (by simp [hq]))]
      simp [hv]

/-- C8 amended: for every region sequence whose pages exist in the document,
the pass validates each bounding box as a well-formed rectangle
(`x0 ≤ x1` and `top ≤ bottom`; degenerate rectangles pass the check), draws
one highlight annotation on the corresponding page for each such box, in
order, and skips every invalid box without aborting. -/
theorem highlight_suspicious_fonts_amended (pageCount : Nat)
    (regions : List SuspiciousRegion)
    (h : ∀ r ∈ regions, 1 ≤ r.page ∧ r.page ≤ pageCount) :
    highlight_suspicious_fonts pageCount regions =
      Except.ok ((regions.filter (fun r => rectIsValid r.bbox)).map
        (fun r => (r.page - 1, r.bbox))) := by
  rw [highlight_suspicious_fonts, highlight_fold_ok pageCount regions [] h]
  rfl

/-- C8 amended, witnessed: with one valid and one invalid box on an existing
page, exactly the valid box is drawn. -/
theorem highlight_suspicious_fonts_amended_witness :
    highlight_suspicious_fonts 2
      [{ page := 2, fontname := "F", bbox := (1, 2, 3, 4), text := "x",
         width := 2, height := 2 },
       { page := 1, fontname := "G", bbox := (3, 2, 1, 4), text := "y",
         width := 0, height := 2 }] = Except.ok [(1, (1, 2, 3, 4))] := by
  rw [highlight_suspicious_fonts_amended 2 _ (by decide)]
  rfl

/-! ## Claim C10 — missing account number -/

/-- A successful `findSome?` comes from some element of the list. -/
theorem findSome_mem {α β : Type} {l : List α} {f : α → Option β} {b : β}
    (h : l.findSome? f = some b) : ∃ a ∈ l, f a = some b := by
  induction l with
  | nil => simp [List.findSome?] at h
  | cons x xs ih =>
    rw [List.findSome?_cons] at h
    cases hx : f x with
    | some v =>
      rw [hx] at h
      simp at h
      exact ⟨x, by simp, by rw [hx, h]⟩
    | none =>
      rw [hx] at h
      obtain ⟨a, ha, hfa⟩ := ih h
      exact ⟨a, by simp [ha], hfa⟩

/-- A successful search matches the pattern at the start of some suffix of
the text. -/
theorem searchToks_some_suffix (pat : List Tok) :
    ∀ (s : List Char) (caps : List (List Char)), searchToks pat s = some caps →
      ∃ t, t <:+ s ∧ ∃ cr, matchToks pat t = some cr ∧ cr.1 = caps := by
  intro s
  induction s with
  | nil =>
    intro caps h
    rw [searchToks] at h
    cases hm : matchToks pat [] with
    | none => rw [hm] at h; simp at h
    | some cr =>
      rw [hm] at h
      simp at h
      exact ⟨[], List.suffix_refl [], cr, hm, h⟩
  | cons a rest ih =>
    intro caps h
    rw [searchToks] at h
    cases hm : matchToks pat (a :: rest) with
    | some cr =>
      rw [hm] at h
      simp at h
      exact ⟨a :: rest, List.suffix_refl _, cr, hm, h⟩
    | none =>
      rw [hm] at h
      obtain ⟨t, ht, cr, hcr, hcaps⟩ := ih caps h
      exact ⟨t, ht.trans (List.suffix_cons a rest), cr, hcr, hcaps⟩

/-- Unfolding step: a simple token followed by the rest of the pattern. -/
theorem matchToks_simple_cons (t : STok) (ts : List Tok) (s : List Char) :
    matchToks (.simple t :: ts) s =
      (stokRests t s).findSome? (fun r => matchToks ts r) := rfl

/-- A match of the account-number pattern begins with one of its two anchor
literals. -/
theorem matchToks_accountNumber_anchor (s : List Char)
    (cr : List (List Char) × List Char)
    (h : matchToks patAccountNumber s = some cr) :
    "Account number:".data <+: s ∨ "Account #".data <+: s := by
  rw [patAccountNumber] at h
  simp only [lit] at h
  rw [matchToks_simple_cons] at h
  obtain ⟨r1, hr1, hk1⟩ := findSome_mem h
  simp only [stokRests] at hr1
  have hlit : litDrop "Account ".data s = some r1 := by
    cases hd : litDrop "Account ".data s with
    | none => rw [hd] at hr1; simp at hr1
    | some v =>
      rw [hd] at hr1
      simp at hr1
      rw [hr1]
  simp only [litDrop] at hlit
  by_cases hp : "Account ".data.isPrefixOf s
  · rw [if_pos hp] at hlit
    have hr1eq : r1 = s.drop "Account ".data.length :=
      (Option.some_inj.mp hlit).symm
    obtain ⟨u, hu⟩ := List.isPrefixOf_iff_prefix.mp hp
    have hdrop : r1 = u := by
      rw [hr1eq, ← hu, List.drop_left]
    rw [matchToks_simple_cons] at hk1
    obtain ⟨r2, hr2, _⟩ := findSome_mem hk1
    simp only [stokRests] at hr2
    rw [List.mem_filterMap] at hr2
    obtain ⟨x, hx, hxd⟩ := hr2
    simp only [litDrop] at hxd
    by_cases hq : x.isPrefixOf r1
    · obtain ⟨v, hv⟩ := List.isPrefixOf_iff_prefix.mp hq
      have hu2 : u = x ++ v := by
        rw [← hdrop, ← hv]
      have hs : s = "Account ".data ++ (x ++ v) := by
        rw [← hu, hu2]
      simp only [List.mem_cons, List.not_mem_nil, or_false] at hx
      rcases hx with rfl | rfl
      · left
        refine ⟨v, ?_⟩
        rw [hs]
        have hcat : "Account number:".data =
            "Account ".data ++ "number:".data := by decide
        rw [hcat, List.append_assoc]
      · right
        refine ⟨v, ?_⟩
        rw [hs]
        have hcat : "Account #".data = "Account ".data ++ "#".data := by decide
        rw [hcat, List.append_assoc]
    · rw [if_neg hq] at hxd
      exact absurd hxd (by simp)
  · rw [if_neg hp] at hlit
    exact absurd hlit (by simp)

/-- C10: for every text that contains neither `"Account number:"` nor
`"Account #"` as a substring, the extracted record's `account_number` is
`None` — unlike the numeric summary fields, which default to `0.00`, and the
account holder, which defaults to `"Name not found"`. -/
theorem account_number_none (text : String)
    (h1 : listContains "Account number:".data text.data = false)
    (h2 : listContains "Account #".data text.data = false) :
    (structure_extract_in_json text).account_summary.account_number = none ∧
    extract_account_number text = none ∧
    (searchLines patAccountHolder text.data = none →
      (structure_extract_in_json text).account_holder = "Name not found") ∧
    (searchToks patBeginningBalance text.data = none →
      (structure_extract_in_json text).account_summary.initial_balance = 0) := by
  have hacct : extract_account_number text = none := by
    cases hs : searchToks patAccountNumber text.data with
    | none => simp [extract_account_number, hs]
    | some caps =>
      exfalso
      obtain ⟨t, ht, cr, hcr, _⟩ := searchToks_some_suffix patAccountNumber text.data caps hs
      rcases matchToks_accountNumber_anchor t cr hcr with hpre | hpre
      · have : listContains "Account number:".data text.data = true :=
          (listContains_iff _ text.data).mpr (hpre.isInfix.trans ht.isInfix)
        rw [this] at h1
        exact Bool.noConfusion h1
      · have : listContains "Account #".data text.data = true :=
          (listContains_iff _ text.data).mpr (hpre.isInfix.trans ht.isInfix)
        rw [this] at h2
        exact Bool.noConfusion h2
  refine ⟨?_, hacct, ?_, ?_⟩
  · simpa [structure_extract_in_json] using hacct
  · intro h
    simp [structure_extract_in_json, h]
  · intro h
    have : (structure_extract_in_json text).account_summary.initial_balance =
        find_value patBeginningBalance text.data false := by
      simp [structure_extract_in_json]
    rw [this, find_value_none h]

/-- C10 witnessed: on `"hello"`, which contains neither anchor, the account
number is `None` while the defaults apply. -/
theorem account_number_none_witness :
    (structure_extract_in_json "hello").account_summary.account_number = none ∧
    extract_account_number "hello" = none := by
  have h := account_number_none "hello" (by decide) (by decide)
  exact ⟨h.1, h.2.1⟩

end DocFraud
